import Mathlib

/-!
Verification of the langchain cookbook notebooks
(cookbook/oracleai_demo.ipynb and
docs/docs/integrations/text_embedding/spacy_embedding.ipynb).

The two notebooks are straight-line demonstration code that calls external
libraries (python-oracledb, the Oracle AI LangChain integration classes, and
spaCy).  The shallow embedding below models the locally executed code of the
notebook cells exactly, while the external library calls are abstracted as
parameters: pure functions where only values matter, and Except-valued
functions where error behaviour matters.  Python dictionaries of string
values are modelled as insertion-ordered association lists, and Python
dictionary assignment as in-place update of the first matching key.
-/

namespace OracleAIDemo

/-- A langchain_core Document as used by the notebooks: a page content
string and a metadata dictionary (string keyed, string valued in every use
the notebooks make of it). -/
structure Document where
  page_content : String
  metadata : List (String × String)
deriving DecidableEq

/-- Python dictionary assignment d[k] = v on an insertion-ordered
association list: replaces the value at the first occurrence of the key,
keeping its position, and appends the pair when the key is absent.
Returns a new list, so the source dictionary is unchanged (which is also
how dict.copy() followed by assignment behaves for the copy's source). -/
def dictSet : List (String × String) → String → String → List (String × String)
  | [], k, v => [(k, v)]
  | (k', v') :: rest, k, v =>
      if k' = k then (k, v) :: rest else (k', v') :: dictSet rest k v

/-- The body of the chunk loop of the end-to-end pipeline cell of
oracleai_demo.ipynb: starting from a copy of the document metadata, the
cell sets "id" to metadata "_oid" + "$" + str(id) + "$" + str(ic), then
"document_id" to str(id), then "document_summary" to str(summ[0]), and
appends Document(page_content=str(chunk), metadata=chunk_metadata).
Reading the missing "_oid" key raises KeyError and summ[0] on an empty
summary raises IndexError; both are modelled by none.  The evaluation
order (the "_oid" read happens before the summ[0] read) follows the cell. -/
def buildChunkDoc (d : Document) (summ : List String) (id ic : Nat)
    (chunk : String) : Option Document :=
  match List.lookup "_oid" d.metadata with
  | none => none
  | some oid =>
    let m1 := dictSet d.metadata "id"
      (oid ++ "$" ++ toString id ++ "$" ++ toString ic)
    let m2 := dictSet m1 "document_id" (toString id)
    match summ.head? with
    | none => none
    | some s0 => some ⟨chunk, dictSet m2 "document_summary" s0⟩

/-- The inner chunk loop of the pipeline cell: for ic, chunk in
enumerate(chunks, start=1), append buildChunkDoc. -/
def processChunks (d : Document) (summ : List String) (id : Nat) :
    Nat → List String → Option (List Document)
  | _, [] => some []
  | ic, c :: cs => do
      let x ← buildChunkDoc d summ id ic c
      let rest ← processChunks d summ id (ic + 1) cs
      pure (x :: rest)

/-- One iteration of the outer document loop of the pipeline cell:
summ = summary.get_summary(doc.page_content);
chunks = splitter.split_text(doc.page_content); then the chunk loop. -/
def processDoc (gs st : String → List String) (id : Nat) (d : Document) :
    Option (List Document) :=
  processChunks d (gs d.page_content) id 1 (st d.page_content)

/-- The outer loop of the pipeline cell: for id, doc in
enumerate(docs, start=1), extending chunks_with_mdata with the documents
produced for each chunk.  gs abstracts OracleSummary.get_summary and st
abstracts OracleTextSplitter.split_text (both external calls), assumed to
be functions of their text argument. -/
def processAll (gs st : String → List String) :
    Nat → List Document → Option (List Document)
  | _, [] => some []
  | id, d :: ds => do
      let xs ← processDoc gs st id d
      let rest ← processAll gs st (id + 1) ds
      pure (xs ++ rest)

/-- chunks_with_mdata as computed by the end-to-end pipeline cell, as a
function of the external summary and splitter calls and the loaded docs. -/
def chunksWithMdata (gs st : String → List String) (docs : List Document) :
    Option (List Document) :=
  processAll gs st 1 docs

/-! ### The sequence of external API calls made by oracleai_demo.ipynb

Running all code cells of the notebook top to bottom produces a sequence
of external-library calls.  `trace` lists them in execution order; the
only inputs it depends on are the list of documents returned by
loader.load() and the splitter.split_text function (the number of
embed_query calls of the embedding cell is one per chunk). -/

/-- The kinds of external API calls the notebook cells make. -/
inductive Step
  | connect
  | execSQL
  | commit
  | loadModel
  | credential
  | loadDocs
  | summarize
  | split
  | embed
  | store
  | createIndex
  | query
deriving DecidableEq

/-- Position of a step in the chain connect, load documents, summarize,
split, embed, store, create index, query; none for calls outside the
chain (raw SQL, commit, ONNX model loading, credential creation). -/
def chainIdx : Step → Option Nat
  | .connect => some 0
  | .loadDocs => some 1
  | .summarize => some 2
  | .split => some 3
  | .embed => some 4
  | .store => some 5
  | .createIndex => some 6
  | .query => some 7
  | _ => none

/-- Calls of the fixed opening cells, in order: the Create Demo User cell
(connect as SYSTEM, one PL/SQL execute), the Connect to Demo User cell,
the Populate a Demo Table cell (drop, create, executemany, commit), the
Load the ONNX Model cell, the Create Credential cell, and loader.load()
of the Load Documents cell. -/
def setupEvents : List Step :=
  [.connect, .execSQL, .connect, .execSQL, .execSQL, .execSQL, .commit,
   .loadModel, .credential, .loadDocs]

/-- The Generate Summary cell: one get_summary call per loaded document. -/
def summaryCellEvents (docs : List Document) : List Step :=
  docs.map (fun _ => .summarize)

/-- The Split Documents cell: one split_text call per loaded document. -/
def splitCellEvents (docs : List Document) : List Step :=
  docs.map (fun _ => .split)

/-- The Generate Embeddings cell: per document one split_text call
followed by one embed_query call per chunk. -/
def embedCellEvents (st : String → List String) (docs : List Document) :
    List Step :=
  docs.flatMap (fun d => .split :: (st d.page_content).map (fun _ => .embed))

/-- The end-to-end pipeline cell: a fresh connect, a load_onnx_model
call, then per document one get_summary call followed by one split_text
call (the chunk loop itself makes no external calls). -/
def pipelineCellEvents (docs : List Document) : List Step :=
  .connect :: .loadModel :: docs.flatMap (fun _ => [.summarize, .split])

/-- The OracleVS.from_documents cell (one bulk store call). -/
def storeEvents : List Step := [.store]

/-- The oraclevs.create_index cell. -/
def indexEvents : List Step := [.createIndex]

/-- The Perform Semantic Search cell: six search calls. -/
def queryEvents : List Step :=
  [.query, .query, .query, .query, .query, .query]

/-- All external calls of oracleai_demo.ipynb in execution order, when
every call succeeds. -/
def trace (st : String → List String) (docs : List Document) : List Step :=
  setupEvents ++ (summaryCellEvents docs ++ (splitCellEvents docs ++
    (embedCellEvents st docs ++ (pipelineCellEvents docs ++
      (storeEvents ++ (indexEvents ++ queryEvents))))))

/-- The subsequence of chain positions of the calls of a trace. -/
def chainSeq (t : List Step) : List Nat := t.filterMap chainIdx

/-- Index of the first occurrence of an element in a list (length of the
list when absent). -/
def firstIdx {α : Type} [DecidableEq α] (s : α) : List α → Nat
  | [] => 0
  | t :: ts => if t = s then 0 else firstIdx s ts + 1

/-! ### Error semantics of the notebook cells

Every external call may fail; the notebooks contain no try/except, so the
cells are modelled in the Except monad: each statement runs only when the
previous one succeeded and any error is returned as is.  The SQL
statement texts are owned by the external database; they are identified
here by a tag so that distinct execute calls stay distinct. -/

/-- Tags for the SQL statements the notebook passes to cursor.execute and
cursor.executemany. -/
inductive SqlStmt
  | userSetup
  | dropDemoTab
  | createDemoTab
  | insertDemoRows
  | createCredentials
deriving DecidableEq

/-- The rows the Populate a Demo Table cell inserts into demo_tab. -/
def demoRows : List (Nat × String) :=
  [(1, "If the answer to any preceding questions is yes, then the database stops the search and allocates space from the specified tablespace; otherwise, space is allocated from the database default shared temporary tablespace."),
   (2, "A tablespace can be online (accessible) or offline (not accessible) whenever the database is open.\nA tablespace is usually online so that its data is available to users. The SYSTEM tablespace and temporary tablespaces cannot be taken offline."),
   (3, "The database stores LOBs differently from other data types. Creating a LOB column implicitly creates a LOB segment and a LOB index. The tablespace containing the LOB segment and LOB index, which are always stored together, may be different from the tablespace containing the table.\nSometimes the database can store small amounts of LOB data in the table itself rather than in a separate LOB segment.")]

/-- loader_params of the Load Documents cell. -/
def loaderParams : List (String × String) :=
  [("owner", "testuser"), ("tablename", "demo_tab"), ("colname", "data")]

/-- params of the oraclevs.create_index cell. -/
def idxParams : List (String × String) :=
  [("idx_name", "hnsw_oravs"), ("idx_type", "HNSW")]

/-- The query of the Perform Semantic Search cell. -/
def demoQuery : String := "What is Oracle AI Vector Store?"

/-- The filter of the Perform Semantic Search cell. -/
def demoFilter : List (String × List String) := [("document_id", ["1"])]

/-- The external APIs oracleai_demo.ipynb calls, as fallible functions.
E is the error type, C the connection type and V the vector-store handle
type, all owned by the external libraries.  pyError stands for the
KeyError/IndexError the Python runtime raises in the pipeline chunk loop
when "_oid" is missing or the summary list is empty. -/
structure OracleExt (E C V : Type) where
  connect : String → String → String → Except E C
  execSQL : C → SqlStmt → Except E Unit
  executeMany : C → SqlStmt → List (Nat × String) → Except E Unit
  commit : C → Except E Unit
  load_onnx_model : C → String → String → String → Except E Unit
  loadDocs : C → List (String × String) → Except E (List Document)
  get_summary : C → String → Except E (List String)
  split_text : C → String → Except E (List String)
  embed_query : C → String → Except E (List Int)
  from_documents : List Document → C → String → Except E V
  create_index : C → V → List (String × String) → Except E Unit
  similarity_search :
    V → String → Nat → Option (List (String × List String)) →
      Except E (List Document)
  similarity_search_with_score :
    V → String → Nat → Option (List (String × List String)) →
      Except E (List (Document × Int))
  max_marginal_relevance_search :
    V → String → Nat → Nat → Option (List (String × List String)) →
      Except E (List Document)
  pyError : E

/-- Fallible for-loop over a list, failing at the first failing element,
as a Python for-loop over external calls behaves. -/
def listMapM {E α β : Type} (f : α → Except E β) :
    List α → Except E (List β)
  | [] => .ok []
  | a :: l => do
      let b ← f a
      let r ← listMapM f l
      pure (b :: r)

/-- The Create Demo User cell: connect as SYSTEM and run the user-setup
PL/SQL block. -/
def cellUserSetup {E C V} (x : OracleExt E C V) : Except E Unit := do
  let c ← x.connect "SYSTEM" "" ""
  x.execSQL c .userSetup

/-- The Connect to Demo User cell. -/
def cellConnect {E C V} (x : OracleExt E C V) : Except E C :=
  x.connect "testuser" "" ""

/-- The Populate a Demo Table cell: drop, create, executemany, commit. -/
def cellPopulate {E C V} (x : OracleExt E C V) (c : C) : Except E Unit := do
  x.execSQL c .dropDemoTab
  x.execSQL c .createDemoTab
  x.executeMany c .insertDemoRows demoRows
  x.commit c

/-- The Load the ONNX Model cell. -/
def cellLoadOnnx {E C V} (x : OracleExt E C V) (c : C) : Except E Unit :=
  x.load_onnx_model c "DEMO_PY_DIR" "tinybert.onnx" "demo_model"

/-- The Create Credential cell. -/
def cellCredential {E C V} (x : OracleExt E C V) (c : C) : Except E Unit :=
  x.execSQL c .createCredentials

/-- The Load Documents cell: docs = loader.load(). -/
def cellLoadDocs {E C V} (x : OracleExt E C V) (c : C) :
    Except E (List Document) :=
  x.loadDocs c loaderParams

/-- The Generate Summary cell loop. -/
def cellSummaries {E C V} (x : OracleExt E C V) (c : C)
    (docs : List Document) : Except E (List (List String)) :=
  listMapM (fun d => x.get_summary c d.page_content) docs

/-- The Split Documents cell loop. -/
def cellChunks {E C V} (x : OracleExt E C V) (c : C)
    (docs : List Document) : Except E (List (List String)) :=
  listMapM (fun d => x.split_text c d.page_content) docs

/-- The Generate Embeddings cell loop: per document split again, then
embed each chunk. -/
def cellEmbeddings {E C V} (x : OracleExt E C V) (c : C)
    (docs : List Document) : Except E (List (List (List Int))) :=
  listMapM (fun d => do
    let cs ← x.split_text c d.page_content
    listMapM (fun ch => x.embed_query c ch) cs) docs

/-- The chunk loop of the pipeline cell under fallible externals: a local
KeyError/IndexError surfaces as pyError. -/
def pipelineChunkLoop {E C V} (x : OracleExt E C V) (d : Document)
    (summ : List String) (id : Nat) :
    Nat → List String → Except E (List Document)
  | _, [] => .ok []
  | ic, c :: cs =>
      match buildChunkDoc d summ id ic c with
      | none => .error x.pyError
      | some cd => do
          let rest ← pipelineChunkLoop x d summ id (ic + 1) cs
          pure (cd :: rest)

/-- The document loop of the pipeline cell under fallible externals. -/
def pipelineDocsLoop {E C V} (x : OracleExt E C V) (c : C) :
    Nat → List Document → Except E (List Document)
  | _, [] => .ok []
  | id, d :: ds => do
      let summ ← x.get_summary c d.page_content
      let cs ← x.split_text c d.page_content
      let items ← pipelineChunkLoop x d summ id 1 cs
      let rest ← pipelineDocsLoop x c (id + 1) ds
      pure (items ++ rest)

/-- The end-to-end pipeline cell: fresh connection, load the ONNX model,
then the document loop; returns the new connection and chunks_with_mdata. -/
def cellPipeline {E C V} (x : OracleExt E C V) (docs : List Document) :
    Except E (C × List Document) := do
  let c2 ← x.connect "" "" ""
  x.load_onnx_model c2 "DEMO_PY_DIR" "tinybert.onnx" "demo_model"
  let cm ← pipelineDocsLoop x c2 1 docs
  pure (c2, cm)

/-- The OracleVS.from_documents cell. -/
def cellStore {E C V} (x : OracleExt E C V) (c2 : C)
    (cm : List Document) : Except E V :=
  x.from_documents cm c2 "oravs"

/-- The oraclevs.create_index cell. -/
def cellIndex {E C V} (x : OracleExt E C V) (c2 : C) (vs : V) :
    Except E Unit :=
  x.create_index c2 vs idxParams

/-- The Perform Semantic Search cell: the six search calls in source
order. -/
def cellSearch {E C V} (x : OracleExt E C V) (vs : V) : Except E Unit := do
  let _ ← x.similarity_search vs demoQuery 1 none
  let _ ← x.similarity_search vs demoQuery 1 (some demoFilter)
  let _ ← x.similarity_search_with_score vs demoQuery 1 none
  let _ ← x.similarity_search_with_score vs demoQuery 1 (some demoFilter)
  let _ ← x.max_marginal_relevance_search vs demoQuery 1 20 none
  let _ ← x.max_marginal_relevance_search vs demoQuery 1 20 (some demoFilter)
  pure ()

/-- All code cells of oracleai_demo.ipynb run top to bottom. -/
def runOracleNotebook {E C V} (x : OracleExt E C V) : Except E Unit := do
  cellUserSetup x
  let c ← cellConnect x
  cellPopulate x c
  cellLoadOnnx x c
  cellCredential x c
  let docs ← cellLoadDocs x c
  let _ ← cellSummaries x c docs
  let _ ← cellChunks x c docs
  let _ ← cellEmbeddings x c docs
  let p ← cellPipeline x docs
  let vs ← cellStore x p.1 p.2
  cellIndex x p.1 vs
  cellSearch x vs

/-! ### The semantic-search cell's calls (for the search-variant claim) -/

/-- The three vector-store search methods the source invokes. -/
inductive SearchMethod
  | similarity
  | similarityWithScore
  | maxMarginalRelevance
deriving DecidableEq

/-- One search call of the Perform Semantic Search cell: the method, the
k argument, whether a filter argument is passed, and the fetch_k argument
when present (lambda_mult, a float, is not modelled; it plays no role in
any claim). -/
structure SearchCall where
  method : SearchMethod
  k : Nat
  hasFilter : Bool
  fetchK : Option Nat
deriving DecidableEq

/-- The six search calls of the Perform Semantic Search cell, in source
order; these are the only vector-store search calls in the repository. -/
def semanticSearchCalls : List SearchCall :=
  [⟨.similarity, 1, false, none⟩,
   ⟨.similarity, 1, true, none⟩,
   ⟨.similarityWithScore, 1, false, none⟩,
   ⟨.similarityWithScore, 1, true, none⟩,
   ⟨.maxMarginalRelevance, 1, false, some 20⟩,
   ⟨.maxMarginalRelevance, 1, true, some 20⟩]

/-- Plain similarity search: similarity_search without a filter. -/
abbrev isPlainSimilaritySearch (c : SearchCall) : Prop :=
  c.method = .similarity ∧ c.hasFilter = false

/-- Filtered similarity search: similarity_search with a filter. -/
abbrev isFilteredSimilaritySearch (c : SearchCall) : Prop :=
  c.method = .similarity ∧ c.hasFilter = true

/-- Scored similarity search: similarity_search_with_score (with or
without a filter). -/
abbrev isScoredSimilaritySearch (c : SearchCall) : Prop :=
  c.method = .similarityWithScore

/-- Max-marginal-relevance search: max_marginal_relevance_search (with or
without a filter). -/
abbrev isMaxMarginalRelevanceSearch (c : SearchCall) : Prop :=
  c.method = .maxMarginalRelevance

/-! ### The summarization configuration mappings (for the summary-params
claim) -/

/-- A Python value appearing in the notebook's configuration mappings:
a string or an integer. -/
inductive ParamValue
  | str (s : String)
  | int (n : Int)
deriving DecidableEq

/-- summary_params of the Generate Summary cell. -/
def summaryParamsCell : List (String × ParamValue) :=
  [("provider", .str "database"), ("glevel", .str "S"),
   ("numParagraphs", .int 1), ("language", .str "english")]

/-- summary_params of the end-to-end pipeline cell. -/
def summaryParamsPipelineCell : List (String × ParamValue) :=
  [("provider", .str "database"), ("glevel", .str "S"),
   ("numParagraphs", .int 1), ("language", .str "english")]

/-- The configuration mappings passed to the two OracleSummary
instantiations in the source (the Generate Summary cell and the pipeline
cell); there are no other instantiations of the summarization API. -/
def oracleSummaryInstantiations : List (List (String × ParamValue)) :=
  [summaryParamsCell, summaryParamsPipelineCell]

/-! ### The split and embedding cells as value computations -/

/-- list_chunks as computed by the Split Documents cell: starts empty and
extends with splitter.split_text(doc.page_content) per loaded document. -/
def listChunksCellResult (st : String → List String)
    (docs : List Document) : List String :=
  docs.foldl (fun acc d => acc ++ st d.page_content) []

/-- embeddings as computed by the Generate Embeddings cell: per document
split again, then append embedder.embed_query(chunk) per chunk. -/
def embeddingsCellResult {B : Type} (st : String → List String)
    (emb : String → B) (docs : List Document) : List B :=
  docs.foldl
    (fun acc d => (st d.page_content).foldl (fun acc2 c => acc2 ++ [emb c]) acc)
    []

end OracleAIDemo

namespace SpacyDemo

open OracleAIDemo

/-! ### The spaCy embedding notebook -/

/-- The example texts of spacy_embedding.ipynb. -/
def spacyTexts : List String :=
  ["The quick brown fox jumps over the lazy dog.",
   "Pack my box with five dozen liquor jugs.",
   "How vexingly quick daft zebras jump!",
   "Bright vixens jump; dozy fowl quack."]

/-- The query of spacy_embedding.ipynb. -/
def spacyQuery : String := "Quick foxes and lazy dogs."

/-- The embedding operations the spaCy notebook can invoke on the
external SpacyEmbeddings API. -/
inductive SpacyCall
  | batchDocuments (texts : List String)
  | singleQuery (q : String)
deriving DecidableEq

/-- The embedding calls the spaCy notebook makes, in cell order: one
embed_documents call on the four texts, then one embed_query call on the
query.  No other embedding operation appears in the notebook. -/
def spacyEmbeddingCallLog : List SpacyCall :=
  [.batchDocuments spacyTexts, .singleQuery spacyQuery]

/-- Modelled from the spec: the NLP-toolkit batch entry point
(SpacyEmbeddings.embed_documents, not part of this repository) maps a
list of texts to one embedding per text. -/
def spacyEmbedDocuments {B : Type} (embedOne : String → B)
    (texts : List String) : List B :=
  texts.map embedOne

/-- The external SpacyEmbeddings API as fallible functions: loading the
model at construction, the batch call and the single-query call.  M is
the loaded-model type and B the embedding type. -/
structure SpacyExt (E M B : Type) where
  loadSpacyModel : String → Except E M
  embed_documents : M → List String → Except E (List B)
  embed_query : M → String → Except E B

/-- All code cells of spacy_embedding.ipynb run top to bottom. -/
def runSpacyNotebook {E M B} (x : SpacyExt E M B) : Except E Unit := do
  let m ← x.loadSpacyModel "en_core_web_sm"
  let _ ← x.embed_documents m spacyTexts
  let _ ← x.embed_query m spacyQuery
  pure ()

/-- A spaCy external API whose every call fails. -/
def failingSpacyExt : SpacyExt String Unit Unit where
  loadSpacyModel := fun _ => .error "boom"
  embed_documents := fun _ _ => .error "boom"
  embed_query := fun _ _ => .error "boom"

end SpacyDemo

namespace OracleAIDemo

/-- An Oracle external API whose every call fails. -/
def failingOracleExt : OracleExt String Unit Unit where
  connect := fun _ _ _ => .error "boom"
  execSQL := fun _ _ => .error "boom"
  executeMany := fun _ _ _ => .error "boom"
  commit := fun _ => .error "boom"
  load_onnx_model := fun _ _ _ _ => .error "boom"
  loadDocs := fun _ _ => .error "boom"
  get_summary := fun _ _ => .error "boom"
  split_text := fun _ _ => .error "boom"
  embed_query := fun _ _ => .error "boom"
  from_documents := fun _ _ _ => .error "boom"
  create_index := fun _ _ _ => .error "boom"
  similarity_search := fun _ _ _ _ => .error "boom"
  similarity_search_with_score := fun _ _ _ _ => .error "boom"
  max_marginal_relevance_search := fun _ _ _ _ _ => .error "boom"
  pyError := "boom"

end OracleAIDemo

namespace OracleAIDemo

/-! ## Dictionary lemmas -/

/-- Looking up the assigned key after a dictionary assignment yields the
assigned value. -/
theorem lookup_dictSet_self (m : List (String × String)) (k v : String) :
    List.lookup k (dictSet m k v) = some v := by
  induction m with
  | nil => simp [dictSet, List.lookup]
  | cons p rest ih =>
    obtain ⟨k', v'⟩ := p
    by_cases h : k' = k
    · subst h
      simp [dictSet, List.lookup]
    · have hb : (k == k') = false :=
        beq_eq_false_iff_ne.mpr (fun hh => h hh.symm)
      simp [dictSet, if_neg h, List.lookup, hb, ih]

/-- A dictionary assignment leaves every other key unchanged. -/
theorem lookup_dictSet_ne (m : List (String × String)) (k k' v : String)
    (h : k' ≠ k) : List.lookup k' (dictSet m k v) = List.lookup k' m := by
  have hb : (k' == k) = false := beq_eq_false_iff_ne.mpr h
  induction m with
  | nil => simp [dictSet, List.lookup, hb]
  | cons p rest ih =>
    obtain ⟨k1, v1⟩ := p
    by_cases h1 : k1 = k
    · subst h1
      simp [dictSet, List.lookup, hb]
    · by_cases h2 : k' = k1
      · subst h2
        simp [dictSet, if_neg h1, List.lookup]
      · have hb2 : (k' == k1) = false := beq_eq_false_iff_ne.mpr h2
        simp [dictSet, if_neg h1, List.lookup, hb2, ih]

/-! ## The chunk loop body -/

/-- Closed form of buildChunkDoc when "_oid" is present and the summary
is nonempty. -/
theorem buildChunkDoc_eq (d : Document) (summ : List String) (id ic : Nat)
    (chunk oid s0 : String)
    (hoid : List.lookup "_oid" d.metadata = some oid)
    (hs : summ.head? = some s0) :
    buildChunkDoc d summ id ic chunk = some ⟨chunk,
      dictSet (dictSet (dictSet d.metadata "id"
        (oid ++ "$" ++ toString id ++ "$" ++ toString ic))
        "document_id" (toString id)) "document_summary" s0⟩ := by
  simp [buildChunkDoc, hoid, hs]

/-- Whatever buildChunkDoc produces keeps the chunk text as page content
and agrees with the source metadata away from the three keys the loop
writes. -/
theorem buildChunkDoc_inv {d : Document} {summ : List String}
    {id ic : Nat} {chunk : String} {x : Document}
    (h : buildChunkDoc d summ id ic chunk = some x) :
    x.page_content = chunk ∧
      ∀ k, k ≠ "id" → k ≠ "document_id" → k ≠ "document_summary" →
        List.lookup k x.metadata = List.lookup k d.metadata := by
  unfold buildChunkDoc at h
  cases hoid : List.lookup "_oid" d.metadata with
  | none => rw [hoid] at h; cases h
  | some oid =>
    rw [hoid] at h
    cases hs : summ.head? with
    | none => simp only [hs] at h; cases h
    | some s0 =>
      simp only [hs] at h
      injection h with h
      subst h
      refine ⟨rfl, fun k h1 h2 h3 => ?_⟩
      rw [lookup_dictSet_ne _ _ _ _ h3, lookup_dictSet_ne _ _ _ _ h2,
        lookup_dictSet_ne _ _ _ _ h1]

/-- Every element of a successful chunk-loop result comes from one of the
chunks, via buildChunkDoc. -/
theorem processChunks_inv (d : Document) (summ : List String) (id : Nat) :
    ∀ (ic : Nat) (l : List String) (r : List Document),
      processChunks d summ id ic l = some r →
      ∀ x ∈ r, ∃ c ∈ l, ∃ j, buildChunkDoc d summ id j c = some x := by
  intro ic l
  induction l generalizing ic with
  | nil =>
    intro r h x hx
    simp only [processChunks, Option.some.injEq] at h
    subst h
    cases hx
  | cons c cs ih =>
    intro r h x hx
    simp only [processChunks, bind, Option.bind_eq_some, pure,
      Option.some.injEq] at h
    obtain ⟨x0, hb, rest, hr, hcons⟩ := h
    subst hcons
    rcases List.mem_cons.mp hx with hx0 | hxr
    · subst hx0
      exact ⟨c, List.mem_cons_self c cs, ic, hb⟩
    · obtain ⟨c', hc', j, hj⟩ := ih (ic + 1) rest hr x hxr
      exact ⟨c', List.mem_cons_of_mem c hc', j, hj⟩

/-- Every element of a successful pipeline-loop result comes from one of
the loaded documents, via processDoc. -/
theorem processAll_inv (gs st : String → List String) :
    ∀ (id : Nat) (docs : List Document) (r : List Document),
      processAll gs st id docs = some r →
      ∀ x ∈ r, ∃ d ∈ docs, ∃ j rr,
        processDoc gs st j d = some rr ∧ x ∈ rr := by
  intro id docs
  induction docs generalizing id with
  | nil =>
    intro r h x hx
    simp only [processAll, Option.some.injEq] at h
    subst h
    cases hx
  | cons d ds ih =>
    intro r h x hx
    simp only [processAll, bind, Option.bind_eq_some, pure,
      Option.some.injEq] at h
    obtain ⟨xs, hxs, rest, hrest, happ⟩ := h
    subst happ
    rcases List.mem_append.mp hx with hl | hr
    · exact ⟨d, List.mem_cons_self d ds, id, xs, hxs, hl⟩
    · obtain ⟨d', hd', j, rr, hj, hxr⟩ := ih (id + 1) rest hrest x hr
      exact ⟨d', List.mem_cons_of_mem d hd', j, rr, hj, hxr⟩

/-- C1, counterexample to the claim as stated: the end-to-end pipeline
cell does compute data locally between the external calls.  With one
loaded document of metadata [("_oid", "A")], a summarizer returning
["s"] and a splitter returning ["c"], the Document handed to the vector
store carries the locally computed entries id = "A$1$1",
document_id = "1" and document_summary = "s", so its metadata is not the
loader-produced metadata passed through unchanged. -/
theorem c1_counterexample :
    chunksWithMdata (fun _ => ["s"]) (fun _ => ["c"])
        [⟨"t", [("_oid", "A")]⟩] =
      some [⟨"c", [("_oid", "A"), ("id", "A$1$1"), ("document_id", "1"),
        ("document_summary", "s")]⟩] ∧
    [("_oid", "A"), ("id", "A$1$1"), ("document_id", "1"),
        ("document_summary", "s")] ≠ [("_oid", "A")] :=
  ⟨by decide, by decide⟩

/-- C1 as amended: every external call of the pipeline receives its
argument unchanged (get_summary and split_text are applied to
doc.page_content verbatim, by definition of processDoc), and the only
locally computed data between the external calls is the chunk metadata:
each stored Document keeps a chunk of the split output as its page
content and agrees with its source document's metadata on every key
other than the locally written id, document_id and document_summary. -/
theorem c1_amended_passthrough (gs st : String → List String)
    (docs res : List Document)
    (h : chunksWithMdata gs st docs = some res) :
    ∀ x ∈ res, ∃ d ∈ docs, ∃ chunk ∈ st d.page_content,
      x.page_content = chunk ∧
      ∀ k, k ≠ "id" → k ≠ "document_id" → k ≠ "document_summary" →
        List.lookup k x.metadata = List.lookup k d.metadata := by
  intro x hx
  obtain ⟨d, hd, j, rr, hrr, hxrr⟩ :=
    processAll_inv gs st 1 docs res h x hx
  obtain ⟨c, hc, j2, hb⟩ :=
    processChunks_inv d (gs d.page_content) j 1 (st d.page_content) rr
      hrr x hxrr
  obtain ⟨hpc, hlk⟩ := buildChunkDoc_inv hb
  exact ⟨d, hd, c, hc, hpc, hlk⟩

/-- Concrete instance of the amended C1 theorem. -/
theorem c1_amended_passthrough_witness :
    ∃ d ∈ [(⟨"t", [("_oid", "A")]⟩ : Document)],
      ∃ chunk ∈ (fun _ : String => ["c"]) d.page_content,
        (Document.mk "c" [("_oid", "A"), ("id", "A$1$1"),
          ("document_id", "1"), ("document_summary", "s")]).page_content
            = chunk ∧
        ∀ k, k ≠ "id" → k ≠ "document_id" → k ≠ "document_summary" →
          List.lookup k (Document.mk "c" [("_oid", "A"), ("id", "A$1$1"),
            ("document_id", "1"), ("document_summary", "s")]).metadata =
          List.lookup k d.metadata :=
  c1_amended_passthrough (fun _ => ["s"]) (fun _ => ["c"])
    [⟨"t", [("_oid", "A")]⟩]
    [⟨"c", [("_oid", "A"), ("id", "A$1$1"), ("document_id", "1"),
      ("document_summary", "s")]⟩]
    (by decide)
    ⟨"c", [("_oid", "A"), ("id", "A$1$1"), ("document_id", "1"),
      ("document_summary", "s")]⟩
    (by decide)

/-- C8: in the end-to-end pipeline cell, the Document appended for the
document with 1-based index id and its chunk with 1-based index ic
carries a copy of the source metadata in which "id" is set to
metadata "_oid" + "$" + str(id) + "$" + str(ic), "document_id" to
str(id), "document_summary" to str(summ[0]), and every other key keeps
its source value; the source metadata itself is a distinct, unmodified
list. -/
theorem c8_pipeline_chunk_metadata (d : Document) (summ : List String)
    (id ic : Nat) (chunk oid s0 : String)
    (hoid : List.lookup "_oid" d.metadata = some oid)
    (hs : summ.head? = some s0) :
    ∃ m, buildChunkDoc d summ id ic chunk = some ⟨chunk, m⟩ ∧
      List.lookup "id" m =
        some (oid ++ "$" ++ toString id ++ "$" ++ toString ic) ∧
      List.lookup "document_id" m = some (toString id) ∧
      List.lookup "document_summary" m = some s0 ∧
      ∀ k, k ≠ "id" → k ≠ "document_id" → k ≠ "document_summary" →
        List.lookup k m = List.lookup k d.metadata := by
  refine ⟨_, buildChunkDoc_eq d summ id ic chunk oid s0 hoid hs,
    ?_, ?_, ?_, ?_⟩
  · rw [lookup_dictSet_ne _ _ _ _ (by decide),
      lookup_dictSet_ne _ _ _ _ (by decide), lookup_dictSet_self]
  · rw [lookup_dictSet_ne _ _ _ _ (by decide), lookup_dictSet_self]
  · rw [lookup_dictSet_self]
  · intro k h1 h2 h3
    rw [lookup_dictSet_ne _ _ _ _ h3, lookup_dictSet_ne _ _ _ _ h2,
      lookup_dictSet_ne _ _ _ _ h1]

/-- Concrete instance of the C8 theorem. -/
theorem c8_pipeline_chunk_metadata_witness :
    ∃ m, buildChunkDoc ⟨"txt", [("_oid", "A")]⟩ ["s"] 1 2 "c" =
        some ⟨"c", m⟩ ∧
      List.lookup "id" m =
        some ("A" ++ "$" ++ toString 1 ++ "$" ++ toString 2) ∧
      List.lookup "document_id" m = some (toString 1) ∧
      List.lookup "document_summary" m = some "s" ∧
      ∀ k, k ≠ "id" → k ≠ "document_id" → k ≠ "document_summary" →
        List.lookup k m =
          List.lookup k (Document.mk "txt" [("_oid", "A")]).metadata :=
  c8_pipeline_chunk_metadata ⟨"txt", [("_oid", "A")]⟩ ["s"] 1 2 "c" "A" "s"
    rfl rfl

/-- C5: both OracleSummary instantiations in the source pass a
configuration mapping whose keys are exactly provider, glevel,
numParagraphs and language, in this order, and nothing else. -/
theorem c5_summary_params_keys :
    oracleSummaryInstantiations.map (fun p => p.map Prod.fst) =
      [["provider", "glevel", "numParagraphs", "language"],
       ["provider", "glevel", "numParagraphs", "language"]] := rfl

/-- C3: every vector-store search call of the source is a plain
similarity search, a filtered similarity search, a scored similarity
search or a max-marginal-relevance search, and the semantic-search cell
exercises each of the four variants. -/
theorem c3_search_variants :
    (∀ c ∈ semanticSearchCalls,
        isPlainSimilaritySearch c ∨ isFilteredSimilaritySearch c ∨
          isScoredSimilaritySearch c ∨ isMaxMarginalRelevanceSearch c) ∧
      (∃ c ∈ semanticSearchCalls, isPlainSimilaritySearch c) ∧
      (∃ c ∈ semanticSearchCalls, isFilteredSimilaritySearch c) ∧
      (∃ c ∈ semanticSearchCalls, isScoredSimilaritySearch c) ∧
      (∃ c ∈ semanticSearchCalls, isMaxMarginalRelevanceSearch c) := by
  decide

/-- Concrete instance of the C3 theorem at the first search call. -/
theorem c3_search_variants_witness :
    isPlainSimilaritySearch ⟨.similarity, 1, false, none⟩ ∨
      isFilteredSimilaritySearch ⟨.similarity, 1, false, none⟩ ∨
        isScoredSimilaritySearch ⟨.similarity, 1, false, none⟩ ∨
          isMaxMarginalRelevanceSearch ⟨.similarity, 1, false, none⟩ :=
  c3_search_variants.1 ⟨.similarity, 1, false, none⟩ (by decide)

/-! ## The split and embedding cell loops -/

/-- A fold that repeatedly extends an accumulator list is concatenation:
the imperative extend loop computes the flattening of the per-element
lists in order. -/
theorem foldl_append_eq_flatten {α β : Type} (f : α → List β) :
    ∀ (l : List α) (acc : List β),
      l.foldl (fun a x => a ++ f x) acc = acc ++ (l.map f).flatten := by
  intro l
  induction l with
  | nil => intro acc; simp
  | cons d ds ih => intro acc; simp [ih]

/-- A fold that appends one element per step computes map. -/
theorem foldl_append_singleton {α β : Type} (g : α → β) :
    ∀ (l : List α) (acc : List β),
      l.foldl (fun a c => a ++ [g c]) acc = acc ++ l.map g := by
  intro l
  induction l with
  | nil => intro acc; simp
  | cons c cs ih => intro acc; simp [ih]

/-- The embedding cell's nested loop flattens the per-document embedded
chunks in order. -/
theorem embeddingsCellResult_eq {B : Type} (st : String → List String)
    (emb : String → B) (docs : List Document) :
    embeddingsCellResult st emb docs =
      (docs.map (fun d => (st d.page_content).map emb)).flatten := by
  have h1 : embeddingsCellResult st emb docs =
      docs.foldl (fun acc d => acc ++ (st d.page_content).map emb) [] := by
    simp [embeddingsCellResult, foldl_append_singleton]
  rw [h1, foldl_append_eq_flatten]
  simp

/-- C10: list_chunks of the Split Documents cell is the order-preserving
concatenation of splitter.split_text(doc.page_content) over the loaded
documents: no chunk is dropped, duplicated or reordered. -/
theorem c10_list_chunks_concat (st : String → List String)
    (docs : List Document) :
    listChunksCellResult st docs =
      (docs.map (fun d => st d.page_content)).flatten := by
  simpa [listChunksCellResult] using
    foldl_append_eq_flatten (fun d : Document => st d.page_content) docs []

/-- C9: the embedding cell collects exactly one embedding per chunk: the
number of embeddings equals the sum over the loaded documents of the
number of chunks split_text returns for that document's page content. -/
theorem c9_one_embedding_per_chunk {B : Type} (st : String → List String)
    (emb : String → B) (docs : List Document) :
    (embeddingsCellResult st emb docs).length =
      (docs.map (fun d => (st d.page_content).length)).sum := by
  rw [embeddingsCellResult_eq]
  simp [List.length_flatten, Function.comp_def]

/-! ## First-occurrence indices -/

/-- The first occurrence is unaffected by a suffix when the element is in
the head part. -/
theorem firstIdx_append_of_mem {α : Type} [DecidableEq α] {a : α}
    {l1 : List α} (l2 : List α) (h : a ∈ l1) :
    firstIdx a (l1 ++ l2) = firstIdx a l1 := by
  induction l1 with
  | nil => cases h
  | cons t ts ih =>
    by_cases ht : t = a
    · simp [firstIdx, ht]
    · have : a ∈ ts := by
        rcases List.mem_cons.mp h with h1 | h1
        · exact absurd h1.symm ht
        · exact h1
      simp [firstIdx, ht, ih this]

/-- A present element's first occurrence lies inside the list. -/
theorem firstIdx_lt_length {α : Type} [DecidableEq α] {a : α}
    {l : List α} (h : a ∈ l) : firstIdx a l < l.length := by
  induction l with
  | nil => cases h
  | cons t ts ih =>
    by_cases ht : t = a
    · simp [firstIdx, ht]
    · have hmem : a ∈ ts := by
        rcases List.mem_cons.mp h with h1 | h1
        · exact absurd h1.symm ht
        · exact h1
      have := ih hmem
      simp only [firstIdx, if_neg ht, List.length_cons]
      omega

/-- The first occurrence of an element absent from the head part is the
head part's length plus its first occurrence in the tail part. -/
theorem firstIdx_append_of_not_mem {α : Type} [DecidableEq α] {a : α}
    {l1 : List α} (l2 : List α) (h : a ∉ l1) :
    firstIdx a (l1 ++ l2) = l1.length + firstIdx a l2 := by
  induction l1 with
  | nil => simp
  | cons t ts ih =>
    have ht : ¬t = a := fun hh => h (hh ▸ List.mem_cons_self t ts)
    have hts : a ∉ ts := fun hh => h (List.mem_cons_of_mem t hh)
    rw [List.cons_append]
    simp only [firstIdx, if_neg ht, List.length_cons]
    rw [ih hts]
    omega

/-- An element of the head part occurs no later than anything absent from
the head part. -/
theorem firstIdx_le_append {α : Type} [DecidableEq α] {a b : α}
    {l1 : List α} (l2 : List α) (ha : a ∈ l1) (hb : b ∉ l1) :
    firstIdx a (l1 ++ l2) ≤ firstIdx b (l1 ++ l2) := by
  rw [firstIdx_append_of_mem l2 ha, firstIdx_append_of_not_mem l2 hb]
  have := firstIdx_lt_length ha
  omega

/-! ## What each cell's event list can contain -/

/-- The summary cell emits only summarize events. -/
theorem eq_summarize_of_mem_summary {docs : List Document} {s : Step}
    (h : s ∈ summaryCellEvents docs) : s = .summarize := by
  simp only [summaryCellEvents, List.mem_map] at h
  obtain ⟨_, _, h⟩ := h
  exact h.symm

/-- The split cell emits only split events. -/
theorem eq_split_of_mem_splitCell {docs : List Document} {s : Step}
    (h : s ∈ splitCellEvents docs) : s = .split := by
  simp only [splitCellEvents, List.mem_map] at h
  obtain ⟨_, _, h⟩ := h
  exact h.symm

/-- The embedding cell emits only split and embed events. -/
theorem mem_embedCellEvents {st : String → List String}
    {docs : List Document} {s : Step} (h : s ∈ embedCellEvents st docs) :
    s = .split ∨ s = .embed := by
  simp only [embedCellEvents, List.mem_flatMap] at h
  obtain ⟨d, _, hmem⟩ := h
  rcases List.mem_cons.mp hmem with h1 | h1
  · exact Or.inl h1
  · simp only [List.mem_map] at h1
    obtain ⟨_, _, h1⟩ := h1
    exact Or.inr h1.symm

/-- The pipeline cell emits only connect, loadModel, summarize and split
events. -/
theorem mem_pipelineCellEvents {docs : List Document} {s : Step}
    (h : s ∈ pipelineCellEvents docs) :
    s = .connect ∨ s = .loadModel ∨ s = .summarize ∨ s = .split := by
  simp only [pipelineCellEvents, List.mem_cons, List.mem_flatMap] at h
  rcases h with h | h | h
  · exact Or.inl h
  · exact Or.inr (Or.inl h)
  · obtain ⟨_, _, hmem⟩ := h
    rcases hmem with h1 | h1 | h1
    · exact Or.inr (Or.inr (Or.inl h1))
    · exact Or.inr (Or.inr (Or.inr h1))
    · cases h1

/-- Summarize events occur only when at least one document was loaded. -/
theorem docs_ne_nil_of_summarize_mem {st : String → List String}
    {docs : List Document} (h : Step.summarize ∈ trace st docs) :
    docs ≠ [] := by
  intro hnil
  subst hnil
  have ht : trace st [] = trace (fun _ => []) [] := rfl
  rw [ht] at h
  revert h
  decide

/-- Split events occur only when at least one document was loaded. -/
theorem docs_ne_nil_of_split_mem {st : String → List String}
    {docs : List Document} (h : Step.split ∈ trace st docs) :
    docs ≠ [] := by
  intro hnil
  subst hnil
  have ht : trace st [] = trace (fun _ => []) [] := rfl
  rw [ht] at h
  revert h
  decide

/-- An embed event can only come from the embedding cell. -/
theorem embed_mem_embedCell {st : String → List String}
    {docs : List Document} (h : Step.embed ∈ trace st docs) :
    Step.embed ∈ embedCellEvents st docs := by
  simp only [trace, List.mem_append] at h
  rcases h with h | h | h | h | h | h | h | h
  · exact absurd h (by decide)
  · exact absurd (eq_summarize_of_mem_summary h) (by decide)
  · exact absurd (eq_split_of_mem_splitCell h) (by decide)
  · exact h
  · rcases mem_pipelineCellEvents h with h1 | h1 | h1 | h1 <;> cases h1
  · exact absurd h (by decide)
  · exact absurd h (by decide)
  · exact absurd h (by decide)

/-! ## First-invocation ordering of the call chain -/

/-- The very first call of the notebook is a connect. -/
theorem fi_connect_le (st : String → List String) (docs : List Document)
    (b : Step) :
    firstIdx Step.connect (trace st docs) ≤ firstIdx b (trace st docs) := by
  have h0 : firstIdx Step.connect (trace st docs) = 0 := rfl
  rw [h0]
  exact Nat.zero_le _

/-- loader.load() is first invoked before anything outside the opening
cells. -/
theorem fi_loadDocs_le (st : String → List String) (docs : List Document)
    (b : Step) (hb : b ∉ setupEvents) :
    firstIdx Step.loadDocs (trace st docs) ≤ firstIdx b (trace st docs) := by
  have ht : trace st docs = setupEvents ++ (summaryCellEvents docs ++
      (splitCellEvents docs ++ (embedCellEvents st docs ++
        (pipelineCellEvents docs ++ (storeEvents ++
          (indexEvents ++ queryEvents)))))) := rfl
  rw [ht]
  exact firstIdx_le_append _ (by decide) hb

/-- When a summarize call happens at all, its first occurrence precedes
the first occurrence of any step outside the opening cells and the
summary cell. -/
theorem fi_summarize_le (st : String → List String) (docs : List Document)
    (b : Step) (ha : Step.summarize ∈ trace st docs)
    (hb1 : b ∉ setupEvents) (hb2 : b ≠ .summarize) :
    firstIdx Step.summarize (trace st docs) ≤
      firstIdx b (trace st docs) := by
  obtain ⟨d, ds, rfl⟩ :=
    List.exists_cons_of_ne_nil (docs_ne_nil_of_summarize_mem ha)
  have ht : trace st (d :: ds) =
      (setupEvents ++ summaryCellEvents (d :: ds)) ++
        (splitCellEvents (d :: ds) ++ (embedCellEvents st (d :: ds) ++
          (pipelineCellEvents (d :: ds) ++ (storeEvents ++
            (indexEvents ++ queryEvents))))) := by
    simp [trace, List.append_assoc]
  rw [ht]
  apply firstIdx_le_append
  · exact List.mem_append_right _ (by simp [summaryCellEvents])
  · intro hmem
    rcases List.mem_append.mp hmem with h | h
    · exact hb1 h
    · exact hb2 (eq_summarize_of_mem_summary h)

/-- When a split call happens at all, its first occurrence precedes the
first occurrence of any step outside the opening, summary and split
cells. -/
theorem fi_split_le (st : String → List String) (docs : List Document)
    (b : Step) (ha : Step.split ∈ trace st docs)
    (hb1 : b ∉ setupEvents) (hb2 : b ≠ .summarize) (hb3 : b ≠ .split) :
    firstIdx Step.split (trace st docs) ≤ firstIdx b (trace st docs) := by
  obtain ⟨d, ds, rfl⟩ :=
    List.exists_cons_of_ne_nil (docs_ne_nil_of_split_mem ha)
  have ht : trace st (d :: ds) =
      (setupEvents ++ summaryCellEvents (d :: ds) ++
          splitCellEvents (d :: ds)) ++
        (embedCellEvents st (d :: ds) ++ (pipelineCellEvents (d :: ds) ++
          (storeEvents ++ (indexEvents ++ queryEvents)))) := by
    simp [trace, List.append_assoc]
  rw [ht]
  apply firstIdx_le_append
  · exact List.mem_append_right _ (by simp [splitCellEvents])
  · intro hmem
    rcases List.mem_append.mp hmem with h | h
    · rcases List.mem_append.mp h with h1 | h1
      · exact hb1 h1
      · exact hb2 (eq_summarize_of_mem_summary h1)
    · exact hb3 (eq_split_of_mem_splitCell h)

/-- When an embed call happens at all, its first occurrence precedes the
first occurrence of any step after the embedding cell. -/
theorem fi_embed_le (st : String → List String) (docs : List Document)
    (b : Step) (ha : Step.embed ∈ trace st docs)
    (hb1 : b ∉ setupEvents) (hb2 : b ≠ .summarize) (hb3 : b ≠ .split)
    (hb4 : b ≠ .embed) :
    firstIdx Step.embed (trace st docs) ≤ firstIdx b (trace st docs) := by
  have ht : trace st docs =
      (setupEvents ++ summaryCellEvents docs ++ splitCellEvents docs ++
          embedCellEvents st docs) ++
        (pipelineCellEvents docs ++ (storeEvents ++
          (indexEvents ++ queryEvents))) := by
    simp [trace, List.append_assoc]
  rw [ht]
  apply firstIdx_le_append
  · exact List.mem_append_right _ (embed_mem_embedCell ha)
  · intro hmem
    rcases List.mem_append.mp hmem with h | h
    · rcases List.mem_append.mp h with h1 | h1
      · rcases List.mem_append.mp h1 with h2 | h2
        · exact hb1 h2
        · exact hb2 (eq_summarize_of_mem_summary h2)
      · exact hb3 (eq_split_of_mem_splitCell h1)
    · rcases mem_embedCellEvents h with h1 | h1
      · exact hb3 h1
      · exact hb4 h1

/-- The from_documents call precedes the first occurrence of any step
after it (index creation, queries). -/
theorem fi_store_le (st : String → List String) (docs : List Document)
    (b : Step) (hb1 : b ∉ setupEvents) (hb2 : b ≠ .summarize)
    (hb3 : b ≠ .split) (hb4 : b ≠ .embed) (hb5 : b ≠ .connect)
    (hb6 : b ≠ .loadModel) (hb7 : b ≠ .store) :
    firstIdx Step.store (trace st docs) ≤ firstIdx b (trace st docs) := by
  have ht : trace st docs =
      (setupEvents ++ summaryCellEvents docs ++ splitCellEvents docs ++
          embedCellEvents st docs ++ pipelineCellEvents docs ++
          storeEvents) ++
        (indexEvents ++ queryEvents) := by
    simp [trace, List.append_assoc]
  rw [ht]
  apply firstIdx_le_append
  · exact List.mem_append_right _ (by simp [storeEvents])
  · intro hmem
    rcases List.mem_append.mp hmem with h | h
    · rcases List.mem_append.mp h with h1 | h1
      · rcases List.mem_append.mp h1 with h2 | h2
        · rcases List.mem_append.mp h2 with h3 | h3
          · rcases List.mem_append.mp h3 with h4 | h4
            · exact hb1 h4
            · exact hb2 (eq_summarize_of_mem_summary h4)
          · exact hb3 (eq_split_of_mem_splitCell h3)
        · rcases mem_embedCellEvents h2 with h3 | h3
          · exact hb3 h3
          · exact hb4 h3
      · rcases mem_pipelineCellEvents h1 with h2 | h2 | h2 | h2
        · exact hb5 h2
        · exact hb6 h2
        · exact hb2 h2
        · exact hb3 h2
    · rcases List.mem_singleton.mp h with h1
      exact hb7 h1

/-- The create_index call precedes the first occurrence of the queries. -/
theorem fi_index_le (st : String → List String) (docs : List Document)
    (b : Step) (hb1 : b ∉ setupEvents) (hb2 : b ≠ .summarize)
    (hb3 : b ≠ .split) (hb4 : b ≠ .embed) (hb5 : b ≠ .connect)
    (hb6 : b ≠ .loadModel) (hb7 : b ≠ .store) (hb8 : b ≠ .createIndex) :
    firstIdx Step.createIndex (trace st docs) ≤
      firstIdx b (trace st docs) := by
  have ht : trace st docs =
      (setupEvents ++ summaryCellEvents docs ++ splitCellEvents docs ++
          embedCellEvents st docs ++ pipelineCellEvents docs ++
          storeEvents ++ indexEvents) ++ queryEvents := by
    simp [trace, List.append_assoc]
  rw [ht]
  apply firstIdx_le_append
  · exact List.mem_append_right _ (by simp [indexEvents])
  · intro hmem
    rcases List.mem_append.mp hmem with h | h
    · rcases List.mem_append.mp h with h1 | h1
      · rcases List.mem_append.mp h1 with h2 | h2
        · rcases List.mem_append.mp h2 with h3 | h3
          · rcases List.mem_append.mp h3 with h4 | h4
            · rcases List.mem_append.mp h4 with h5 | h5
              · exact hb1 h5
              · exact hb2 (eq_summarize_of_mem_summary h5)
            · exact hb3 (eq_split_of_mem_splitCell h4)
          · rcases mem_embedCellEvents h3 with h4 | h4
            · exact hb3 h4
            · exact hb4 h4
        · rcases mem_pipelineCellEvents h2 with h3 | h3 | h3 | h3
          · exact hb5 h3
          · exact hb6 h3
          · exact hb2 h3
          · exact hb3 h3
      · exact hb7 (List.mem_singleton.mp h1)
    · exact hb8 (List.mem_singleton.mp h)

/-- C2, counterexample to the claim as stated: the full sequence of
external calls is not ordered by the chain connect, load, summarize,
split, embed, store, index, query.  With two loaded documents and a
one-chunk splitter, the embedding cell emits split after embed for the
second document, and the pipeline cell reconnects and re-runs summarize
and split after the embedding cell; so chain positions decrease along
the trace. -/
theorem c2_counterexample :
    ¬ List.Pairwise (· ≤ ·)
      (chainSeq (trace (fun _ => ["c"]) [⟨"a", []⟩, ⟨"b", []⟩])) := by
  decide

/-- C2 as amended: the chain order holds between first invocations: for
any two chain steps, whenever the earlier one is called at all, its
first call precedes the first call of the later one.  (The original
claim fails only in that later cells repeat earlier steps: the
per-document loops interleave split and embed, and the pipeline cell
reconnects and re-runs summarize and split after the embedding cell.) -/
theorem c2_first_invocation_order (st : String → List String)
    (docs : List Document) (a b : Step) (ia ib : Nat)
    (hia : chainIdx a = some ia) (hib : chainIdx b = some ib)
    (hlt : ia < ib) (ha : a ∈ trace st docs) :
    firstIdx a (trace st docs) ≤ firstIdx b (trace st docs) := by
  cases a <;> cases b <;>
    simp only [chainIdx, Option.some.injEq] at hia hib <;>
    first
      | exact Option.noConfusion hia
      | exact Option.noConfusion hib
      | exact absurd hlt (by omega)
      | exact fi_connect_le st docs _
      | exact fi_loadDocs_le st docs _ (by decide)
      | exact fi_summarize_le st docs _ ha (by decide) (by decide)
      | exact fi_split_le st docs _ ha (by decide) (by decide) (by decide)
      | exact fi_embed_le st docs _ ha (by decide) (by decide) (by decide)
          (by decide)
      | exact fi_store_le st docs _ (by decide) (by decide) (by decide)
          (by decide) (by decide) (by decide) (by decide)
      | exact fi_index_le st docs _ (by decide) (by decide) (by decide)
          (by decide) (by decide) (by decide) (by decide) (by decide)

/-- Concrete instance of the amended C2 theorem: the first load precedes
the first store. -/
theorem c2_first_invocation_order_witness :
    firstIdx Step.loadDocs (trace (fun _ => ["c"]) [⟨"a", []⟩]) ≤
      firstIdx Step.store (trace (fun _ => ["c"]) [⟨"a", []⟩]) :=
  c2_first_invocation_order (fun _ => ["c"]) [⟨"a", []⟩] .loadDocs .store
    1 5 rfl rfl (by omega) (by decide)

end OracleAIDemo

namespace SpacyDemo

/-- C6: the spaCy notebook exercises exactly two embedding entry points,
in order: one batch embed_documents call on the four example texts and
one embed_query call on the query; and the batch entry point (modelled
from the spec) returns one embedding per input text. -/
theorem c6_spacy_embedding_calls :
    spacyEmbeddingCallLog =
        [SpacyCall.batchDocuments spacyTexts, SpacyCall.singleQuery spacyQuery] ∧
      ∀ (B : Type) (f : String → B) (ts : List String),
        (spacyEmbedDocuments f ts).length = ts.length :=
  ⟨rfl, fun _ f ts => by simp [spacyEmbedDocuments]⟩

end SpacyDemo

namespace OracleAIDemo

/-- C4: neither notebook catches, translates or recovers from an
exception: for every external call site, if the call fails while every
call before it succeeded, the whole notebook run returns exactly the
error the external library produced.  The conjuncts walk through the
cells of oracleai_demo.ipynb in execution order and then through the
calls of spacy_embedding.ipynb. -/
theorem c4_error_propagation {E C V M B : Type} (x : OracleExt E C V)
    (y : SpacyDemo.SpacyExt E M B) (e : E) :
    (cellUserSetup x = .error e → runOracleNotebook x = .error e) ∧
    (cellUserSetup x = .ok () → cellConnect x = .error e →
      runOracleNotebook x = .error e) ∧
    (∀ c, cellUserSetup x = .ok () → cellConnect x = .ok c →
      cellPopulate x c = .error e → runOracleNotebook x = .error e) ∧
    (∀ c, cellUserSetup x = .ok () → cellConnect x = .ok c →
      cellPopulate x c = .ok () → cellLoadOnnx x c = .error e →
      runOracleNotebook x = .error e) ∧
    (∀ c, cellUserSetup x = .ok () → cellConnect x = .ok c →
      cellPopulate x c = .ok () → cellLoadOnnx x c = .ok () →
      cellCredential x c = .error e → runOracleNotebook x = .error e) ∧
    (∀ c, cellUserSetup x = .ok () → cellConnect x = .ok c →
      cellPopulate x c = .ok () → cellLoadOnnx x c = .ok () →
      cellCredential x c = .ok () → cellLoadDocs x c = .error e →
      runOracleNotebook x = .error e) ∧
    (∀ c docs, cellUserSetup x = .ok () → cellConnect x = .ok c →
      cellPopulate x c = .ok () → cellLoadOnnx x c = .ok () →
      cellCredential x c = .ok () → cellLoadDocs x c = .ok docs →
      cellSummaries x c docs = .error e →
      runOracleNotebook x = .error e) ∧
    (∀ c docs s1, cellUserSetup x = .ok () → cellConnect x = .ok c →
      cellPopulate x c = .ok () → cellLoadOnnx x c = .ok () →
      cellCredential x c = .ok () → cellLoadDocs x c = .ok docs →
      cellSummaries x c docs = .ok s1 →
      cellChunks x c docs = .error e →
      runOracleNotebook x = .error e) ∧
    (∀ c docs s1 s2, cellUserSetup x = .ok () → cellConnect x = .ok c →
      cellPopulate x c = .ok () → cellLoadOnnx x c = .ok () →
      cellCredential x c = .ok () → cellLoadDocs x c = .ok docs →
      cellSummaries x c docs = .ok s1 → cellChunks x c docs = .ok s2 →
      cellEmbeddings x c docs = .error e →
      runOracleNotebook x = .error e) ∧
    (∀ c docs s1 s2 s3, cellUserSetup x = .ok () →
      cellConnect x = .ok c → cellPopulate x c = .ok () →
      cellLoadOnnx x c = .ok () → cellCredential x c = .ok () →
      cellLoadDocs x c = .ok docs → cellSummaries x c docs = .ok s1 →
      cellChunks x c docs = .ok s2 → cellEmbeddings x c docs = .ok s3 →
      cellPipeline x docs = .error e →
      runOracleNotebook x = .error e) ∧
    (∀ c docs s1 s2 s3 p, cellUserSetup x = .ok () →
      cellConnect x = .ok c → cellPopulate x c = .ok () →
      cellLoadOnnx x c = .ok () → cellCredential x c = .ok () →
      cellLoadDocs x c = .ok docs → cellSummaries x c docs = .ok s1 →
      cellChunks x c docs = .ok s2 → cellEmbeddings x c docs = .ok s3 →
      cellPipeline x docs = .ok p → cellStore x p.1 p.2 = .error e →
      runOracleNotebook x = .error e) ∧
    (∀ c docs s1 s2 s3 p vs, cellUserSetup x = .ok () →
      cellConnect x = .ok c → cellPopulate x c = .ok () →
      cellLoadOnnx x c = .ok () → cellCredential x c = .ok () →
      cellLoadDocs x c = .ok docs → cellSummaries x c docs = .ok s1 →
      cellChunks x c docs = .ok s2 → cellEmbeddings x c docs = .ok s3 →
      cellPipeline x docs = .ok p → cellStore x p.1 p.2 = .ok vs →
      cellIndex x p.1 vs = .error e →
      runOracleNotebook x = .error e) ∧
    (∀ c docs s1 s2 s3 p vs, cellUserSetup x = .ok () →
      cellConnect x = .ok c → cellPopulate x c = .ok () →
      cellLoadOnnx x c = .ok () → cellCredential x c = .ok () →
      cellLoadDocs x c = .ok docs → cellSummaries x c docs = .ok s1 →
      cellChunks x c docs = .ok s2 → cellEmbeddings x c docs = .ok s3 →
      cellPipeline x docs = .ok p → cellStore x p.1 p.2 = .ok vs →
      cellIndex x p.1 vs = .ok () → cellSearch x vs = .error e →
      runOracleNotebook x = .error e) ∧
    (y.loadSpacyModel "en_core_web_sm" = .error e →
      SpacyDemo.runSpacyNotebook y = .error e) ∧
    (∀ m, y.loadSpacyModel "en_core_web_sm" = .ok m →
      y.embed_documents m SpacyDemo.spacyTexts = .error e →
      SpacyDemo.runSpacyNotebook y = .error e) ∧
    (∀ m eds, y.loadSpacyModel "en_core_web_sm" = .ok m →
      y.embed_documents m SpacyDemo.spacyTexts = .ok eds →
      y.embed_query m SpacyDemo.spacyQuery = .error e →
      SpacyDemo.runSpacyNotebook y = .error e) := by
  refine ⟨fun h1 => ?_, fun h1 h2 => ?_, fun c h1 h2 h3 => ?_,
    fun c h1 h2 h3 h4 => ?_, fun c h1 h2 h3 h4 h5 => ?_,
    fun c h1 h2 h3 h4 h5 h6 => ?_, fun c docs h1 h2 h3 h4 h5 h6 h7 => ?_,
    fun c docs s1 h1 h2 h3 h4 h5 h6 h7 h8 => ?_,
    fun c docs s1 s2 h1 h2 h3 h4 h5 h6 h7 h8 h9 => ?_,
    fun c docs s1 s2 s3 h1 h2 h3 h4 h5 h6 h7 h8 h9 h10 => ?_,
    fun c docs s1 s2 s3 p h1 h2 h3 h4 h5 h6 h7 h8 h9 h10 h11 => ?_,
    fun c docs s1 s2 s3 p vs h1 h2 h3 h4 h5 h6 h7 h8 h9 h10 h11 h12 => ?_,
    fun c docs s1 s2 s3 p vs h1 h2 h3 h4 h5 h6 h7 h8 h9 h10 h11 h12 h13
      => ?_,
    fun h1 => ?_, fun m h1 h2 => ?_, fun m eds h1 h2 h3 => ?_⟩ <;>
  simp only [runOracleNotebook, SpacyDemo.runSpacyNotebook, Bind.bind,
    Except.bind, Functor.map, Except.map, pure, Except.pure, *]

end OracleAIDemo

namespace OracleAIDemo

/-- Concrete instance of the C4 theorem: with every external call
failing, both notebook runs surface exactly the external error. -/
theorem c4_error_propagation_witness :
    runOracleNotebook failingOracleExt = .error "boom" ∧
      SpacyDemo.runSpacyNotebook SpacyDemo.failingSpacyExt =
        .error "boom" :=
  ⟨(c4_error_propagation failingOracleExt SpacyDemo.failingSpacyExt
      "boom").1 rfl,
    (c4_error_propagation failingOracleExt SpacyDemo.failingSpacyExt
      "boom").2.2.2.2.2.2.2.2.2.2.2.2.2.1 rfl⟩

end OracleAIDemo
